import Mathlib

/-!
Verification of the clamav-mirror signature updater
(src/github.com/dekobon/clamav-mirror/sigupdate/sigupdate.go) against its
natural-language specification.

The Go program is shallowly embedded: each function of the source that the
claims mention is translated into an executable Lean definition over an
explicit environment that records the outcome of every external effect
(filesystem checks, HTTP calls, the sigtool process).  Machine integers
(int64) are modelled as Int; Go panics (index out of range, nil pointer
dereference) are modelled as explicit result constructors, never hidden.
-/

/-! ## Reconciler: updateFile (sigupdate.go lines 248-342)

`updateFile` decides, per signature artifact, which calls to `downloadFile`
happen and in which order.  The environment records, for each possible
download, whether the corresponding `downloadFile` call returns an error,
and whether each local file exists.  The model returns the ordered trace of
`downloadFile` calls together with the success of the whole reconciliation
(`true` = `updateFile` returns nil). -/

/-- One call to `downloadFile` made by `updateFile`: either the full
artifact (`<name>.cvd`) or the diff for one version (`<name>-<v>.cdiff`). -/
inductive Call where
  | full
  | diff (v : Int)
deriving DecidableEq, Repr

/-- Environment of one `updateFile` run: outcomes of all external effects.
`localExists` is `exists(localFilePath)` for the primary file; `probe` is
the result of `findLocalVersion` (`none` = error, `some v` = `(v, nil)`);
`diffExists v` is `exists` for the diff file of version `v`;
`diffDownloadOk v` is whether `downloadFile` of that diff returns nil;
`fullDownloadOk k` is whether the k-th full-artifact `downloadFile` call of
this run returns nil. -/
structure UpdateEnv where
  localExists : Bool
  probe : Option Int
  diffExists : Int → Bool
  diffDownloadOk : Int → Bool
  fullDownloadOk : Nat → Bool

/-- Outcome of the diff-download loop (sigupdate.go lines 295-325):
`completed` = loop ran to the end without a failed diff; `fellBack` = a diff
download failed and the fallback full download succeeded (`break`);
`fatal` = a diff download failed and the fallback full download also failed
(`return err`). -/
inductive WalkOut where
  | completed
  | fellBack
  | fatal
deriving DecidableEq, Repr

/-- The diff-download loop of `updateFile` over the pending version list:
skip a diff whose file already exists; otherwise call `downloadFile`;
on its failure call `downloadFile` for the full artifact and stop
(`break` on success of the fallback, `return err` on its failure). -/
def diffWalk (env : UpdateEnv) : List Int → List Call × WalkOut
  | [] => ([], .completed)
  | v :: rest =>
    if env.diffExists v then diffWalk env rest
    else if env.diffDownloadOk v then
      let r := diffWalk env rest
      (Call.diff v :: r.1, r.2)
    else if env.fullDownloadOk 0 then ([Call.diff v, Call.full], .fellBack)
    else ([Call.diff v, Call.full], .fatal)

/-- `rangeFrom o n = [o+1, o+2, ..., o+n]`. -/
def rangeFrom (o : Int) : Nat → List Int
  | 0 => []
  | n + 1 => (o + 1) :: rangeFrom (o + 1) n

/-- The versions walked by the loop `for count := oldVersion + 1;
count <= currentVersion; count++`: the integers `old+1 .. current`. -/
def versionRange (old current : Int) : List Int :=
  rangeFrom old (current - old).toNat

/-- The diff downloads actually attempted on a version list when no failure
occurs: one `Call.diff v` for each `v` whose diff file is absent. -/
def neededDiffs (env : UpdateEnv) (vs : List Int) : List Call :=
  (vs.filter (fun v => !env.diffExists v)).map Call.diff

/-- Shallow embedding of `updateFile` (sigupdate.go lines 248-342).
Returns the trace of `downloadFile` calls and whether `updateFile` returns
nil.  Branch order follows the source: missing local file, then
`err != nil || oldVersion < 0` after the probe, then the diff loop, then
the threshold check `currentVersion-oldVersion > int64(diffCountThreshold)`. -/
def updateFile (env : UpdateEnv) (currentVersion : Int) (threshold : Nat) :
    List Call × Bool :=
  if env.localExists = false then ([Call.full], env.fullDownloadOk 0)
  else
    match env.probe with
    | none => ([Call.full], env.fullDownloadOk 0)
    | some old =>
      if old < 0 then ([Call.full], env.fullDownloadOk 0)
      else
        let w := diffWalk env (versionRange old currentVersion)
        match w.2 with
        | .fatal => (w.1, false)
        | .fellBack =>
          if (threshold : Int) < currentVersion - old then
            (w.1 ++ [Call.full], env.fullDownloadOk 1)
          else (w.1, true)
        | .completed =>
          if (threshold : Int) < currentVersion - old then
            (w.1 ++ [Call.full], env.fullDownloadOk 0)
          else (w.1, true)

/-- Environment for the C4 counterexample: local primary file exists, probe
reports version 0, no diff file exists locally, every diff download fails,
every full download succeeds. -/
def uenvC4 : UpdateEnv :=
  { localExists := true
    probe := some 0
    diffExists := fun _ => false
    diffDownloadOk := fun _ => false
    fullDownloadOk := fun _ => true }

/-- Environment for the C6 counterexample: local primary file exists and the
probe succeeds with the (negative) version -1. -/
def uenvC6 : UpdateEnv :=
  { localExists := true
    probe := some (-1)
    diffExists := fun _ => false
    diffDownloadOk := fun _ => false
    fullDownloadOk := fun _ => true }

/-! ## Fetcher: downloadFile and checkIfRemoteIsNewer
(sigupdate.go lines 410-518)

`downloadFile` creates a temp file, optionally consults
`checkIfRemoteIsNewer` when the local file exists, performs the GET,
copies the body to the temp file and renames it onto `localFilePath`.
Times are modelled as Int (Go `time.Time.After` is strict `>`); the file
at `localFilePath` is modelled as an optional record of an abstract
content id and an mtime.  The nil-pointer dereference that happens when
`ioutil.TempFile` fails and `output.Name()` is evaluated is modelled as an
explicit `panics` result. -/

/-- The file stored at `localFilePath`: abstract content id plus
modification time. -/
structure FileRecord where
  content : Nat
  mtime : Int
deriving DecidableEq, Repr

/-- Environment of one `downloadFile` call: outcomes of every external
effect, in source order.  `tempFileOk` is `ioutil.TempFile` succeeding;
`localFile` is the file currently at `localFilePath` (`none` = absent);
`statOk` is `os.Stat` inside `checkIfRemoteIsNewer`; `headOk` is the HEAD
request; `headLastModified` is the parsed `Last-Modified` of the HEAD
response (`none` = missing/unparsable); `getOk`/`getStatus` describe the
GET; `getLastModified` is the parsed `Last-Modified` of the GET response;
`copyOk` is `io.Copy` of the body; `renameOk`/`chtimesOk` are `os.Rename`
and `os.Chtimes` (their errors are discarded by the source);
`remoteContent` is the body's content id; `tempMtime` is the temp file's
natural mtime carried by the rename; `now` is `time.Now()`. -/
structure FetchEnv where
  tempFileOk : Bool
  localFile : Option FileRecord
  statOk : Bool
  headOk : Bool
  headLastModified : Option Int
  getOk : Bool
  getStatus : Int
  getLastModified : Option Int
  copyOk : Bool
  renameOk : Bool
  chtimesOk : Bool
  remoteContent : Nat
  tempMtime : Int
  now : Int
deriving DecidableEq, Repr

/-- The error classes `downloadFile`/`checkIfRemoteIsNewer` can return. -/
inductive ErrKind where
  | statFail
  | headFail
  | headParse
  | getFail
  | badStatus
  | copyFail
deriving DecidableEq, Repr

/-- Shallow embedding of `checkIfRemoteIsNewer` (lines 484-518): stat the
local file, HEAD the URL, parse its `Last-Modified`; any failure returns an
error.  Returns `ok false` (with the "Skipping download ... because local
copy is newer" log) exactly when the local mtime is strictly after the
remote one, `ok true` otherwise. -/
def checkIfRemoteIsNewer (env : FetchEnv) : Except ErrKind Bool :=
  match env.localFile with
  | none => .error .statFail
  | some f =>
    if env.statOk = false then .error .statFail
    else if env.headOk = false then .error .headFail
    else
      match env.headLastModified with
      | none => .error .headParse
      | some remote =>
        if remote < f.mtime then .ok false else .ok true

/-- Result of `downloadFile`: either a Go panic (nil `*os.File`
dereference), or a normal return carrying the returned status int, the
returned error (`none` = nil), whether `http.Get` was issued, and the file
left at `localFilePath`. -/
inductive FetchResult where
  | panics
  | ret (status : Int) (err : Option ErrKind) (didGet : Bool)
        (localFile : Option FileRecord)
deriving DecidableEq, Repr

/-- Whether the `downloadFile` run issued the GET transfer. -/
def FetchResult.didGet : FetchResult → Bool
  | .panics => false
  | .ret _ _ g _ => g

/-- Whether the `downloadFile` run returned a non-nil error. -/
def FetchResult.isErr : FetchResult → Bool
  | .panics => false
  | .ret _ e _ _ => e.isSome

/-- The early-return branch of `downloadFile` (lines 419-429): when the
local file exists, consult `checkIfRemoteIsNewer`; its error is returned
with `unknownStatus = -1`, and a `true` answer returns `(-1, nil)` without
downloading.  `none` means execution continues past the branch. -/
def skipBranch (env : FetchEnv) : Option FetchResult :=
  match env.localFile with
  | none => none
  | some _ =>
    match checkIfRemoteIsNewer env with
    | .error k => some (.ret (-1) (some k) false env.localFile)
    | .ok true => some (.ret (-1) none false env.localFile)
    | .ok false => none

/-- Shallow embedding of `downloadFile` (lines 410-480).  The temp file is
created first but its error is only inspected after the skip branch; when
`ioutil.TempFile` failed, `output` is nil and both the verbose log and the
error-message construction evaluate `output.Name()`, a nil-pointer
dereference (`panics`).  After a 200 GET, an unparsable `Last-Modified`
falls back to `time.Now()`; a body-copy error returns before the rename;
the results of `os.Rename` and `os.Chtimes` are discarded. -/
def downloadFile (env : FetchEnv) : FetchResult :=
  match skipBranch env with
  | some r => r
  | none =>
    if env.tempFileOk = false then .panics
    else if env.getOk = false then .ret (-1) (some .getFail) true env.localFile
    else if env.getStatus ≠ 200 then
      .ret env.getStatus (some .badStatus) true env.localFile
    else
      let lastModified := env.getLastModified.getD env.now
      if env.copyOk = false then
        .ret env.getStatus (some .copyFail) true env.localFile
      else
        let afterRename : Option FileRecord :=
          if env.renameOk then some ⟨env.remoteContent, env.tempMtime⟩
          else env.localFile
        let finalFile : Option FileRecord :=
          match afterRename with
          | some f =>
            if env.chtimesOk then some ⟨f.content, lastModified⟩ else some f
          | none => none
        .ret env.getStatus none true finalFile

/-- C1 scenario (a): local file exists with mtime 11, strictly after the
remote Last-Modified 10; everything else succeeds. -/
def fenvC1a : FetchEnv :=
  { tempFileOk := true, localFile := some ⟨3, 11⟩, statOk := true
    headOk := true, headLastModified := some 10, getOk := true
    getStatus := 200, getLastModified := some 10, copyOk := true
    renameOk := true, chtimesOk := true, remoteContent := 8
    tempMtime := 7, now := 99 }

/-- C1 scenario (b): same but local mtime 9, i.e. the remote copy (10) is
newer than the local one. -/
def fenvC1b : FetchEnv :=
  { fenvC1a with localFile := some ⟨3, 9⟩ }

/-- C2 scenario: local file exists, the HEAD succeeds but its
`Last-Modified` header does not parse. -/
def fenvC2 : FetchEnv :=
  { fenvC1a with localFile := some ⟨3, 50⟩, headLastModified := none }

/-- C7 scenario: no local file, GET succeeds with status 200, but copying
the response body fails mid-transfer. -/
def fenvC7 : FetchEnv :=
  { fenvC1a with localFile := none, copyOk := false }

/-- C9 scenario: a full successful transfer whose final `os.Rename` and
`os.Chtimes` both fail; their errors are discarded by the source. -/
def fenvC9 : FetchEnv :=
  { fenvC1a with
    getLastModified := some 40
    renameOk := false
    chtimesOk := false }

/-- C10 scenario (a): `ioutil.TempFile` fails and no local file exists, so
the skip branch does not return early. -/
def fenvC10a : FetchEnv :=
  { fenvC1a with tempFileOk := false, localFile := none }

/-- C10 scenario (b): `ioutil.TempFile` fails but the local file exists and
the remote is newer, so the skip branch returns `(-1, nil)` first and the
temp-file error is never noticed. -/
def fenvC10b : FetchEnv :=
  { fenvC1a with tempFileOk := false, localFile := some ⟨3, 9⟩ }

/-! ## String primitives shared by parseTxtRecord and findLocalVersion

Faithful models, over `List Char`, of the Go library functions the source
uses: `strings.SplitN(s, ":", 8)`, `strings.SplitAfter`,
`strings.TrimSpace` (ASCII and Latin-1 space classes), `strings.HasPrefix`
and `strconv.ParseInt(s, 10, 64)`. -/

/-- Go `unicode.IsSpace` restricted to the code points that can occur in
the ASCII/Latin-1 output the source consumes. -/
def goIsSpace (c : Char) : Bool :=
  c = ' ' || c = '\t' || c = '\n' || c = '\x0b' || c = '\x0c' || c = '\r' ||
    c = '\x85' || c = '\xa0'

/-- Go `strings.TrimSpace`. -/
def trimGo (s : List Char) : List Char :=
  ((s.dropWhile goIsSpace).reverse.dropWhile goIsSpace).reverse

/-- Go `strings.HasPrefix pat s` on char lists (first argument is the
pattern). -/
def startsWithL : List Char → List Char → Bool
  | [], _ => true
  | _ :: _, [] => false
  | p :: ps, c :: cs => p = c && startsWithL ps cs

/-- Base-10 digit accumulation for `strconv.ParseInt`. -/
def parseDigits (cs : List Char) : Nat :=
  cs.foldl (fun acc c => acc * 10 + (c.toNat - 48)) 0

/-- Go `strconv.ParseInt(s, 10, 64)`: optional single sign, then one or
more ASCII digits, value within the int64 range; anything else (including
out-of-range values, Go's ErrRange) is an error, modelled as `none`. -/
def parseInt64L (cs : List Char) : Option Int :=
  match cs with
  | [] => none
  | c :: rest =>
    let body := if c = '-' || c = '+' then rest else cs
    if body.isEmpty then none
    else if body.all Char.isDigit then
      let v : Int := if c = '-' then -(parseDigits body : Int)
                     else (parseDigits body : Int)
      if v < -(2 ^ 63) || 2 ^ 63 - 1 < v then none else some v
    else none

/-- Split on every colon (Go `strings.Split(s, ":")`); the empty string
yields one empty field, matching Go. -/
def splitOnColon : List Char → List (List Char)
  | [] => [[]]
  | c :: rest =>
    if c = ':' then [] :: splitOnColon rest
    else
      match splitOnColon rest with
      | [] => [[c]]
      | h :: t => (c :: h) :: t

/-- Go `strings.SplitN(s, ":", 8)`: at most 8 fields, the 8th keeping the
unsplit remainder. -/
def goSplitN8 (s : List Char) : List (List Char) :=
  let parts := splitOnColon s
  if parts.length ≤ 8 then parts
  else parts.take 7 ++ [List.intercalate [':'] (parts.drop 7)]

/-- Go `strings.Split(s, sep)` for a non-empty separator, by fuel-bounded
recursion (`fuel ≥ s.length` makes the bound irrelevant). -/
def splitOnSepFuel (sep : List Char) : Nat → List Char → List (List Char)
  | _, [] => [[]]
  | 0, s => [s]
  | fuel + 1, c :: rest =>
    if startsWithL sep (c :: rest) then
      [] :: splitOnSepFuel sep fuel (List.drop sep.length (c :: rest))
    else
      match splitOnSepFuel sep fuel rest with
      | [] => [[c]]
      | h :: t => (c :: h) :: t

/-- Re-append the separator to every piece but the last, turning a
`Split` result into a `SplitAfter` result. -/
def appendSepToInit (sep : List Char) : List (List Char) → List (List Char)
  | [] => []
  | [p] => [p]
  | p :: q :: t => (p ++ sep) :: appendSepToInit sep (q :: t)

/-- Go `strings.SplitAfter(s, sep)`. -/
def splitAfterL (s sep : List Char) : List (List Char) :=
  appendSepToInit sep (splitOnSepFuel sep s.length s)

/-! ## Version source: parseTxtRecord (sigupdate.go lines 174-211)

The source splits the TXT record with `strings.SplitN(record, ":", 8)` and
indexes fields 1, 2, 6 and 7 without any bounds check; an out-of-range
index is a Go runtime panic, modelled explicitly. -/

/-- Result of `parseTxtRecord`: the four parsed versions, an error return
(`err i` = `strconv.ParseInt` failed on field `i`), or a Go index-out-of-
range panic at field index `i`. -/
inductive TxtOut where
  | ok (mainv daily safebrowsing bytecode : Int)
  | err (i : Nat)
  | panics (i : Nat)
deriving DecidableEq, Repr

/-- Whether `parseTxtRecord` returned the parsed versions. -/
def TxtOut.isOk : TxtOut → Bool
  | .ok _ _ _ _ => true
  | _ => false

/-- Shallow embedding of `parseTxtRecord` (lines 174-211) over the
record's characters: fields 1, 2, 6, 7 of `SplitN(record, ":", 8)` are
read in that order; each read panics if the index is out of range and
errors if `ParseInt` fails. -/
def parseTxtRecordL (chars : List Char) : TxtOut :=
  let s := goSplitN8 chars
  match s[1]? with
  | none => .panics 1
  | some f1 =>
    match parseInt64L f1 with
    | none => .err 1
    | some mainv =>
      match s[2]? with
      | none => .panics 2
      | some f2 =>
        match parseInt64L f2 with
        | none => .err 2
        | some daily =>
          match s[6]? with
          | none => .panics 6
          | some f6 =>
            match parseInt64L f6 with
            | none => .err 6
            | some safebrowsing =>
              match s[7]? with
              | none => .panics 7
              | some f7 =>
                match parseInt64L f7 with
                | none => .err 7
                | some bytecode => .ok mainv daily safebrowsing bytecode

/-- `parseTxtRecord` on the record string itself. -/
def parseTxtRecord (record : String) : TxtOut :=
  parseTxtRecordL record.toList

/-! ## VersionProbe: findLocalVersion (sigupdate.go lines 346-406)

The scanner state is the version seen so far (initialised to the sentinel
`math.MinInt64`) and the `validated` flag.  A line with the `Version:`
prefix is split with `strings.SplitAfter(line, "Version: ")` and element 1
is read without a bounds check (a panic when the line contains no
`"Version: "`); a failed `ParseInt` of the trimmed token returns
immediately.  After the scan, `!validated` is checked before the
missing-version sentinel. -/

/-- Go `math.MinInt64`, the sentinel for "no version line seen". -/
def minInt64 : Int := -(2 ^ 63)

/-- The `versionDelim` constant of `findLocalVersion`. -/
def versionLabel : List Char := "Version:".toList

/-- The separator `versionDelim + " "` passed to `strings.SplitAfter`. -/
def versionSep : List Char := "Version: ".toList

/-- The literal validation-success marker scanned for. -/
def okMarker : List Char := "Verification OK".toList

/-- Result of `findLocalVersion`, restricted to the scan of sigtool's
stdout lines (process start/wait and scanner I/O errors are outside the
"sigtool output" the claims quantify over). -/
inductive ProbeOut where
  | ok (v : Int)
  | parseError
  | notValidated
  | noVersion
  | panics
deriving DecidableEq, Repr

/-- The scan loop of `findLocalVersion` (lines 367-395) followed by its
post-loop checks (lines 389-395): `validated` is checked first, then the
sentinel. -/
def scanLines : List (List Char) → Int → Bool → ProbeOut
  | [], version, validated =>
    if validated = false then .notValidated
    else if version = minInt64 then .noVersion
    else .ok version
  | line :: rest, version, validated =>
    if startsWithL versionLabel line then
      match (splitAfterL line versionSep)[1]? with
      | none => .panics
      | some tok =>
        match parseInt64L (trimGo tok) with
        | none => .parseError
        | some v =>
          scanLines rest v (validated || startsWithL okMarker line)
    else
      scanLines rest version (validated || startsWithL okMarker line)

/-- Shallow embedding of `findLocalVersion` (lines 346-406) as a function
of the lines sigtool printed on stdout. -/
def findLocalVersion (lines : List String) : ProbeOut :=
  scanLines (lines.map String.toList) minInt64 false

/-- Environment for the C5 witness: every diff download succeeds and no
diff file exists yet. -/
def uenvC5 : UpdateEnv :=
  { localExists := true
    probe := some 0
    diffExists := fun _ => false
    diffDownloadOk := fun _ => true
    fullDownloadOk := fun _ => true }

/-- Environment for the C6 witness: probe succeeds with version 5. -/
def uenvC6w : UpdateEnv :=
  { uenvC6 with probe := some 5 }

/-! ## Helper lemmas about the diff walk and version ranges -/

/-- When every pending diff either already exists or downloads
successfully, the walk completes and attempts exactly the diffs whose
files are absent, in order. -/
theorem diffWalk_all_success (env : UpdateEnv) (vs : List Int)
    (h : ∀ v ∈ vs, env.diffExists v = true ∨ env.diffDownloadOk v = true) :
    diffWalk env vs = (neededDiffs env vs, .completed) := by
  induction vs with
  | nil => rfl
  | cons v rest ih =>
    have hrest := ih (fun u hu => h u (List.mem_cons_of_mem _ hu))
    rcases h v (List.mem_cons_self v rest) with hv | hv
    · simp [diffWalk, hv, neededDiffs, List.filter_cons] at hrest ⊢
      simpa [neededDiffs] using hrest
    · by_cases he : env.diffExists v = true
      · simp [diffWalk, he, neededDiffs, List.filter_cons] at hrest ⊢
        simpa [neededDiffs] using hrest
      · simp only [Bool.not_eq_true] at he
        simp [diffWalk, he, hv, neededDiffs, List.filter_cons, hrest]

/-- When the versions before `f` all succeed or are skipped and the diff
for `f` neither exists nor downloads, the walk attempts the needed diffs
up to `f`, then the failing diff, then exactly one fallback full download,
and stops. -/
theorem diffWalk_first_failure (env : UpdateEnv) (vs1 vs2 : List Int)
    (f : Int)
    (h1 : ∀ v ∈ vs1, env.diffExists v = true ∨ env.diffDownloadOk v = true)
    (hfe : env.diffExists f = false) (hfo : env.diffDownloadOk f = false) :
    diffWalk env (vs1 ++ f :: vs2) =
      (neededDiffs env vs1 ++ [Call.diff f, Call.full],
       if env.fullDownloadOk 0 then WalkOut.fellBack else WalkOut.fatal) := by
  induction vs1 with
  | nil =>
    by_cases hf : env.fullDownloadOk 0 = true <;>
      simp [diffWalk, hfe, hfo, hf, neededDiffs]
  | cons v rest ih =>
    have hrest := ih (fun u hu => h1 u (List.mem_cons_of_mem _ hu))
    rcases h1 v (List.mem_cons_self v rest) with hv | hv
    · simp [diffWalk, hv, neededDiffs, List.filter_cons] at hrest ⊢
      simpa [neededDiffs] using hrest
    · by_cases he : env.diffExists v = true
      · simp [diffWalk, he, neededDiffs, List.filter_cons] at hrest ⊢
        simpa [neededDiffs] using hrest
      · simp only [Bool.not_eq_true] at he
        simp [diffWalk, he, hv, neededDiffs, List.filter_cons, hrest]

/-- Splitting `rangeFrom` at an intermediate count. -/
theorem rangeFrom_add (o : Int) (m n : Nat) :
    rangeFrom o (m + n) = rangeFrom o m ++ rangeFrom (o + m) n := by
  induction m generalizing o with
  | zero => simp [rangeFrom]
  | succ k ih =>
    have hmn : k + 1 + n = (k + n) + 1 := by omega
    rw [hmn]
    show (o + 1) :: rangeFrom (o + 1) (k + n) =
      ((o + 1) :: rangeFrom (o + 1) k) ++ rangeFrom (o + (k + 1 : Nat)) n
    rw [ih (o + 1)]
    have : (o + 1) + (k : Int) = o + ((k + 1 : Nat) : Int) := by push_cast; ring
    rw [this]
    rfl

/-- Membership in `rangeFrom o n`. -/
theorem mem_rangeFrom (o : Int) (n : Nat) (u : Int) :
    u ∈ rangeFrom o n ↔ o < u ∧ u ≤ o + n := by
  induction n generalizing o with
  | zero => simp [rangeFrom]
  | succ k ih =>
    simp only [rangeFrom, List.mem_cons, ih (o + 1)]
    push_cast
    omega

/-- The version walk from `old` to `current` splits at any `f` with
`old < f ≤ current` into the part before `f`, the version `f`, and the
part after `f`. -/
theorem versionRange_decomp (old f current : Int) (h1 : old < f)
    (h2 : f ≤ current) :
    versionRange old current =
      versionRange old (f - 1) ++ f :: versionRange f current := by
  unfold versionRange
  have ha : (current - old).toNat =
      (f - 1 - old).toNat + (1 + (current - f).toNat) := by omega
  rw [ha, rangeFrom_add]
  congr 1
  have hb : old + (((f - 1 - old).toNat : Nat) : Int) = f - 1 := by omega
  rw [hb]
  have hc : 1 + (current - f).toNat = (current - f).toNat + 1 := by omega
  rw [hc]
  show (f - 1 + 1) :: rangeFrom (f - 1 + 1) (current - f).toNat = _
  have hd : f - 1 + 1 = f := by omega
  rw [hd]

/-! ## Claims C4, C5, C6 (Reconciler) -/

/-- Claim C6 (amended): for every artifact whose local file exists and
whose probe succeeds with a nonnegative localVersion equal to
targetVersion, `updateFile` makes zero `downloadFile` calls and returns
success. -/
theorem updateFile_up_to_date_no_downloads (env : UpdateEnv) (t : Int)
    (thr : Nat) (hex : env.localExists = true) (hp : env.probe = some t)
    (hnn : 0 ≤ t) :
    updateFile env t thr = ([], true) := by
  have hold : ¬ (t < 0) := by omega
  have hrange : versionRange t t = [] := by
    unfold versionRange
    have h0 : (t - t).toNat = 0 := by omega
    rw [h0]
    rfl
  have hthr : ¬ ((thr : Int) < t - t) := by omega
  simp [updateFile, hex, hp, hold, hrange, diffWalk, hthr]

/-- Claim C6 (counterexample): with the local file present and the probe
succeeding with version -1 equal to the target version -1, `updateFile`
performs one full `downloadFile` call instead of zero (the source treats
any negative probed version as invalid and re-downloads). -/
theorem updateFile_negative_equal_version_downloads :
    uenvC6.localExists = true ∧ uenvC6.probe = some (-1) ∧
    updateFile uenvC6 (-1) 100 = ([Call.full], true) ∧
    (updateFile uenvC6 (-1) 100).1 ≠ [] := by
  refine ⟨rfl, rfl, by decide, by decide⟩

/-- Claim C6 (witness): the amended theorem applied at a concrete
up-to-date artifact, local and target version both 5. -/
theorem updateFile_up_to_date_no_downloads_witness :
    updateFile uenvC6w 5 100 = ([], true) :=
  updateFile_up_to_date_no_downloads uenvC6w 5 100 rfl rfl (by decide)

/-- Claim C5: for every artifact with a valid probed local version where
every pending diff already exists or downloads successfully and
`targetVersion - localVersion > diffThreshold`, `updateFile` performs the
needed diff downloads and then one full-artifact `downloadFile` call after
the walk. -/
theorem updateFile_threshold_forces_full (env : UpdateEnv)
    (current old : Int) (thr : Nat)
    (hex : env.localExists = true) (hp : env.probe = some old)
    (hnn : 0 ≤ old)
    (hall : ∀ v ∈ versionRange old current,
      env.diffExists v = true ∨ env.diffDownloadOk v = true)
    (hthr : (thr : Int) < current - old) :
    updateFile env current thr =
      (neededDiffs env (versionRange old current) ++ [Call.full],
       env.fullDownloadOk 0) := by
  have hw := diffWalk_all_success env _ hall
  have hold : ¬ (old < 0) := by omega
  simp [updateFile, hex, hp, hold, hw, hthr]

/-- Claim C5 (witness): local version 0, target 2, threshold 1, all diffs
absent locally and all diff downloads succeeding. -/
theorem updateFile_threshold_forces_full_witness :
    updateFile uenvC5 2 1 =
      (neededDiffs uenvC5 (versionRange 0 2) ++ [Call.full],
       uenvC5.fullDownloadOk 0) :=
  updateFile_threshold_forces_full uenvC5 2 0 1 rfl rfl (by decide)
    (by decide) (by decide)

/-- Claim C4 (amended): on the first diff-download failure `f`, no diffs
after `f` are attempted and exactly one fallback full `downloadFile` call
immediately follows; when the fallback succeeds and
`targetVersion - localVersion > diffThreshold` additionally holds, one
further threshold-driven full download follows after the walk. -/
theorem updateFile_diff_failure_fallback (env : UpdateEnv)
    (current f old : Int) (thr : Nat)
    (hex : env.localExists = true) (hp : env.probe = some old)
    (hnn : 0 ≤ old) (hlt : old < f) (hle : f ≤ current)
    (hpre : ∀ v, old < v → v < f →
      env.diffExists v = true ∨ env.diffDownloadOk v = true)
    (hfe : env.diffExists f = false) (hfo : env.diffDownloadOk f = false) :
    updateFile env current thr =
      (neededDiffs env (versionRange old (f - 1)) ++
        [Call.diff f, Call.full] ++
        (if env.fullDownloadOk 0 = true ∧ (thr : Int) < current - old
         then [Call.full] else []),
       if env.fullDownloadOk 0 = false then false
       else if (thr : Int) < current - old then env.fullDownloadOk 1
       else true) := by
  have hold : ¬ (old < 0) := by omega
  have hdecomp := versionRange_decomp old f current hlt hle
  have h1 : ∀ v ∈ versionRange old (f - 1),
      env.diffExists v = true ∨ env.diffDownloadOk v = true := by
    intro v hv
    have hm := (mem_rangeFrom old ((f - 1 - old).toNat) v).mp hv
    exact hpre v hm.1 (by omega)
  have hw := diffWalk_first_failure env (versionRange old (f - 1))
    (versionRange f current) f h1 hfe hfo
  rw [← hdecomp] at hw
  by_cases hfull : env.fullDownloadOk 0 = true
  · by_cases hthr : (thr : Int) < current - old
    · simp [updateFile, hex, hp, hold, hw, hfull, hthr, List.append_assoc]
    · simp [updateFile, hex, hp, hold, hw, hfull, hthr]
  · simp only [Bool.not_eq_true] at hfull
    simp [updateFile, hex, hp, hold, hw, hfull]

/-- Claim C4 (counterexample): local version 0, target 2, threshold 1,
diff 1 fails; the failed diff is followed by the fallback full download
AND a second threshold-driven full download, so "exactly one full-artifact
download call follows" is false (two such calls follow the failure
point). -/
theorem updateFile_double_full_after_diff_failure :
    uenvC4.diffExists 1 = false ∧ uenvC4.diffDownloadOk 1 = false ∧
    updateFile uenvC4 2 1 = ([Call.diff 1, Call.full, Call.full], true) ∧
    ((updateFile uenvC4 2 1).1.drop 1).count Call.full = 2 := by
  refine ⟨rfl, rfl, by decide, by decide⟩

/-- Claim C4 (witness): the amended theorem applied at the concrete run
with local version 0, target 2, threshold 1 and diff 1 failing. -/
theorem updateFile_diff_failure_fallback_witness :
    updateFile uenvC4 2 1 = ([Call.diff 1, Call.full, Call.full], true) := by
  have h := updateFile_diff_failure_fallback uenvC4 2 1 0 1 rfl rfl
    (by decide) (by decide) (by decide)
    (fun v h1 h2 => absurd h1 (by omega)) rfl rfl
  simpa using h

/-! ## Claims C1, C2, C7, C9, C10 (Fetcher) -/

/-- Claim C1: the source inverts its own newness check.  Scenario (a):
the local file's mtime (11) is strictly after the parsed remote
Last-Modified (10), yet `downloadFile` issues the GET and replaces the
file instead of skipping.  Scenario (b): the remote (10) is newer than the
local mtime (9), yet `downloadFile` returns the no-op `(-1, nil)` without
any GET.  Both directions contradict the claim (and the source's own
"Skipping download ... because local copy is newer" log). -/
theorem downloadFile_inverts_newness_check :
    (fenvC1a.localFile = some ⟨3, 11⟩ ∧
     fenvC1a.headLastModified = some 10 ∧
     downloadFile fenvC1a = .ret 200 none true (some ⟨8, 10⟩)) ∧
    (fenvC1b.localFile = some ⟨3, 9⟩ ∧
     fenvC1b.headLastModified = some 10 ∧
     downloadFile fenvC1b = .ret (-1) none false (some ⟨3, 9⟩)) := by
  refine ⟨⟨rfl, rfl, by decide⟩, ⟨rfl, rfl, by decide⟩⟩

/-- Claim C2 (counterexample): the local file exists and the HEAD
response's Last-Modified does not parse, yet `downloadFile` neither
proceeds to the GET nor succeeds: it returns the wrapped parse error. -/
theorem downloadFile_headParse_error_cex :
    fenvC2.headLastModified = none ∧ fenvC2.localFile.isSome = true ∧
    (downloadFile fenvC2).didGet = false ∧
    (downloadFile fenvC2).isErr = true := by
  refine ⟨rfl, rfl, by decide, by decide⟩

/-- Claim C2 (amended): whenever the local file exists, its stat and the
HEAD request succeed, and the HEAD Last-Modified cannot be parsed,
`downloadFile` returns the wrapped parse error with no GET transfer and
the local file untouched. -/
theorem downloadFile_headParse_returns_error (env : FetchEnv)
    (f : FileRecord) (hl : env.localFile = some f)
    (hs : env.statOk = true) (hh : env.headOk = true)
    (hp : env.headLastModified = none) :
    downloadFile env =
      .ret (-1) (some .headParse) false env.localFile := by
  simp [downloadFile, skipBranch, checkIfRemoteIsNewer, hl, hs, hh, hp]

/-- Claim C2 (witness): the amended theorem at the concrete environment
`fenvC2`. -/
theorem downloadFile_headParse_returns_error_witness :
    downloadFile fenvC2 =
      .ret (-1) (some .headParse) false fenvC2.localFile :=
  downloadFile_headParse_returns_error fenvC2 ⟨3, 50⟩ rfl rfl rfl rfl

/-- Claim C7: for every fetch that reaches the body copy (temp file
created, skip branch passed, GET succeeded with status 200) and whose
`io.Copy` fails, `downloadFile` returns the copy error and the file at
`localFilePath` is exactly what it was before the call: the rename onto
`localFilePath` happens only after a full successful copy. -/
theorem downloadFile_copy_error_preserves_local (env : FetchEnv)
    (hskip : env.localFile = none ∨ checkIfRemoteIsNewer env = .ok false)
    (ht : env.tempFileOk = true) (hg : env.getOk = true)
    (hs : env.getStatus = 200) (hc : env.copyOk = false) :
    downloadFile env =
      .ret 200 (some .copyFail) true env.localFile := by
  have hb : skipBranch env = none := by
    rcases hskip with h | h
    · simp [skipBranch, h]
    · unfold skipBranch
      cases hl : env.localFile with
      | none => rfl
      | some f => simp [h]
  simp [downloadFile, hb, ht, hg, hs, hc]

/-- Claim C7 (witness): the theorem at the concrete environment `fenvC7`
(no local file, copy fails). -/
theorem downloadFile_copy_error_preserves_local_witness :
    downloadFile fenvC7 =
      .ret 200 (some .copyFail) true fenvC7.localFile :=
  downloadFile_copy_error_preserves_local fenvC7 (Or.inl rfl) rfl rfl rfl
    rfl

/-- Claim C9: `downloadFile` reports success (status 200, nil error) even
though `os.Rename` and `os.Chtimes` both failed: the local file still has
its old content 3 (not the downloaded content 8) and its old mtime 11
(not the remote Last-Modified 40), because both error results are
discarded. -/
theorem downloadFile_ignores_rename_failure :
    fenvC9.renameOk = false ∧ fenvC9.chtimesOk = false ∧
    fenvC9.remoteContent = 8 ∧ fenvC9.getLastModified = some 40 ∧
    downloadFile fenvC9 = .ret 200 none true (some ⟨3, 11⟩) := by
  refine ⟨rfl, rfl, rfl, rfl, by decide⟩

/-- Claim C10: when `ioutil.TempFile` fails, `downloadFile` does not
return a wrapped error.  Scenario (a): with no local file the execution
reaches `output.Name()` on the nil handle and panics.  Scenario (b): with
a local file whose mtime is not after the remote's, the skip branch
returns `(-1, nil)` first and the temp-file failure is silently ignored. -/
theorem downloadFile_tempfile_failure_panics :
    (fenvC10a.tempFileOk = false ∧ downloadFile fenvC10a = .panics) ∧
    (fenvC10b.tempFileOk = false ∧
     downloadFile fenvC10b = .ret (-1) none false fenvC10b.localFile) := by
  refine ⟨⟨rfl, by decide⟩, ⟨rfl, by decide⟩⟩

/-! ## Claims C3 (parseTxtRecord) and C8 (findLocalVersion) -/

/-- Claim C3 (counterexample): on the empty record (one colon-separated
field, so fewer than eight) `parseTxtRecord` does not return an error: it
panics with an index-out-of-range on field 1, so the function is not total
over all input strings. -/
theorem parseTxtRecord_empty_panics :
    (goSplitN8 "".toList).length < 8 ∧
    parseTxtRecord "" = .panics 1 ∧
    ∀ i : Nat, parseTxtRecord "" ≠ .err i := by
  refine ⟨by decide, by decide, ?_⟩
  intro i h
  have he : parseTxtRecord "" = TxtOut.panics 1 := by decide
  rw [he] at h
  simp at h

/-- Claim C3 (amended): for every input string with fewer than eight
colon-separated fields, `parseTxtRecord` never returns successfully
parsed versions — the run is a hard failure, but by an error return or by
an index-out-of-range panic, not always by an error return. -/
theorem parseTxtRecord_short_never_ok (record : String)
    (h : (goSplitN8 record.toList).length < 8) :
    (parseTxtRecord record).isOk = false := by
  show (parseTxtRecordL record.toList).isOk = false
  generalize record.toList = chars at h ⊢
  have h7 : (goSplitN8 chars)[7]? = none := by
    apply List.getElem?_eq_none
    omega
  rcases e1 : (goSplitN8 chars)[1]? with _ | f1
  · simp [parseTxtRecordL, e1, TxtOut.isOk]
  rcases e2 : parseInt64L f1 with _ | mainv
  · simp [parseTxtRecordL, e1, e2, TxtOut.isOk]
  rcases e3 : (goSplitN8 chars)[2]? with _ | f2
  · simp [parseTxtRecordL, e1, e2, e3, TxtOut.isOk]
  rcases e4 : parseInt64L f2 with _ | daily
  · simp [parseTxtRecordL, e1, e2, e3, e4, TxtOut.isOk]
  rcases e5 : (goSplitN8 chars)[6]? with _ | f6
  · simp [parseTxtRecordL, e1, e2, e3, e4, e5, TxtOut.isOk]
  rcases e6 : parseInt64L f6 with _ | safebrowsing
  · simp [parseTxtRecordL, e1, e2, e3, e4, e5, e6, TxtOut.isOk]
  simp [parseTxtRecordL, e1, e2, e3, e4, e5, e6, h7, TxtOut.isOk]

/-- Claim C3 (witness): the amended theorem at a concrete two-field
record. -/
theorem parseTxtRecord_short_never_ok_witness :
    (parseTxtRecord "a:b").isOk = false :=
  parseTxtRecord_short_never_ok "a:b" (by decide)

/-- Claim C8 (counterexample): the output line "Version: x" contains no
validation-success marker, yet `findLocalVersion` returns the ParseInt
error for the unparsable version token, not the "not validated" error. -/
theorem findLocalVersion_parse_error_beats_not_validated :
    (∀ l ∈ ["Version: x"], startsWithL okMarker l.toList = false) ∧
    findLocalVersion ["Version: x"] = .parseError ∧
    findLocalVersion ["Version: x"] ≠ .notValidated := by
  refine ⟨by decide, by decide, by decide⟩

/-- Claim C8 helper: the scan of `findLocalVersion` with the `validated`
flag still unset returns "not validated" whenever no line starts with the
marker and every `Version:`-prefixed line carries a parsable token. -/
theorem scanLines_no_marker (ls : List (List Char)) (version : Int)
    (hm : ∀ l ∈ ls, startsWithL okMarker l = false)
    (hv : ∀ l ∈ ls, startsWithL versionLabel l = true →
      ∃ tok, (splitAfterL l versionSep)[1]? = some tok ∧
        (parseInt64L (trimGo tok)).isSome = true) :
    scanLines ls version false = .notValidated := by
  induction ls generalizing version with
  | nil => rfl
  | cons l rest ih =>
    have hml := hm l (List.mem_cons_self l rest)
    have hmr := fun u hu => hm u (List.mem_cons_of_mem _ hu)
    have hvr := fun u hu => hv u (List.mem_cons_of_mem _ hu)
    by_cases hV : startsWithL versionLabel l = true
    · obtain ⟨tok, htok, hparse⟩ := hv l (List.mem_cons_self l rest) hV
      obtain ⟨v, hvv⟩ := Option.isSome_iff_exists.mp hparse
      simp [scanLines, hV, htok, hvv, hml, ih v hmr hvr]
    · simp only [Bool.not_eq_true] at hV
      simp [scanLines, hV, hml, ih version hmr hvr]

/-- Claim C8 (amended): for every sigtool output in which no
validation-success marker line appears and in which every version line's
token parses, `findLocalVersion` returns the "not validated" error,
regardless of whether a version line was present. -/
theorem findLocalVersion_no_marker_not_validated (lines : List String)
    (hm : ∀ l ∈ lines, startsWithL okMarker l.toList = false)
    (hv : ∀ l ∈ lines, startsWithL versionLabel l.toList = true →
      ∃ tok, (splitAfterL l.toList versionSep)[1]? = some tok ∧
        (parseInt64L (trimGo tok)).isSome = true) :
    findLocalVersion lines = .notValidated := by
  apply scanLines_no_marker
  · intro l hl
    obtain ⟨s, hs, rfl⟩ := List.mem_map.mp hl
    exact hm s hs
  · intro l hl
    obtain ⟨s, hs, rfl⟩ := List.mem_map.mp hl
    exact hv s hs

/-- Claim C8 (witness): the amended theorem at a concrete sigtool output
carrying a parsable version line and no marker line. -/
theorem findLocalVersion_no_marker_not_validated_witness :
    findLocalVersion ["File: daily.cvd", "Version: 27777"] =
      .notValidated := by
  apply findLocalVersion_no_marker_not_validated
  · decide
  · intro l hl hV
    simp only [List.mem_cons, List.not_mem_nil, or_false] at hl
    rcases hl with rfl | rfl
    · exact absurd hV (by decide)
    · exact ⟨"27777".toList, by decide, by decide⟩

/-- Claim C8 (evaluation check): on a fully well-formed sigtool output the
probe returns the parsed version, confirming the model distinguishes the
validated case. -/
theorem findLocalVersion_validated_ok_eval :
    findLocalVersion ["Version: 27777", "Verification OK"] = .ok 27777 := by
  decide
